import Mathlib

/-!
Shallow embedding of the Connect-4 engine from `src/main.rs`: the board
representation (`State`), move application with win detection (`State.try_move`),
and the depth-bounded search (`find_next_move`), together with theorems about
the claims of the specification.

Conventions. `COLUMNS = 7`, `ROWS = 6`, `WINNING_LENGTH = 4` are inlined as
literals, as the Rust constants are. The grid is stored row-first (the Rust
`[[Cell; COLUMNS]; ROWS]`), and `State.idx c r` mirrors the `Index<(u8, u8)>`
implementation (column first, then row, reading `grid[row][column]`). Each
Rust `for` loop with `break` becomes a structurally recursive function whose
fuel argument is the exact iteration count of the Rust range, so that the same
sequence of cells is probed.
-/

set_option autoImplicit false

namespace Connect4

inductive Player where
  | O : Player
  | X : Player
deriving DecidableEq

/-- `Player::other`. -/
def Player.other : Player → Player
  | Player.O => Player.X
  | Player.X => Player.O

inductive Cell where
  | Empty : Cell
  | Set : Player → Cell
deriving DecidableEq

/-- `matches!(cell, Cell::Set(_))`. -/
def Cell.isSet : Cell → Bool
  | Cell.Empty => false
  | Cell.Set _ => true

/-- `struct State([[Cell; COLUMNS]; ROWS], Player)`: the grid (row index first,
then column index, like the nested Rust array) plus the player to move. -/
structure State where
  grid : Nat → Nat → Cell
  player : Player

instance : Inhabited State := ⟨⟨fun _ _ => Cell.Empty, Player.O⟩⟩

/-- The `Index<(u8, u8)>` impl: column, then row; reads `grid[row][column]`. -/
def State.idx (s : State) (c r : Nat) : Cell := s.grid r c

inductive MoveResult where
  | Impossible : MoveResult
  | Victory : MoveResult
  | State : Connect4.State → MoveResult

def isVictory : MoveResult → Bool
  | MoveResult.Victory => true
  | _ => false

def isImpossible : MoveResult → Bool
  | MoveResult.Impossible => true
  | _ => false

def isState : MoveResult → Bool
  | MoveResult.State _ => true
  | _ => false

def MoveResult.getState : MoveResult → Connect4.State
  | MoveResult.State next => next
  | _ => default

/-- One row of the grid as a list (columns `0..7`). -/
def rowList (g : Nat → Nat → Cell) (r : Nat) : List Cell :=
  (List.range 7).map fun c => g r c

/-- The grid as a list of rows (rows `0..6`), the Rust `self.0`. -/
def gridRows (g : Nat → Nat → Cell) : List (List Cell) :=
  (List.range 6).map fun r => rowList g r

/-- `State::turn`: `self.0.iter().flatten().filter(matches Set).count()`. -/
def State.turn (s : State) : Nat :=
  ((gridRows s.grid).flatten).countP fun cell => cell.isSet

/-- The inner `fn row` of `try_move`: `for row in 1..ROWS { if set, return
row - 1 }; ROWS - 1`.  The fuel is the iteration count (5 for the full loop). -/
def rowFrom (s : State) (c : Nat) : Nat → Nat → Nat
  | _, 0 => 5
  | r, fuel+1 =>
    match s.idx c r with
    | Cell.Set _ => r - 1
    | Cell.Empty => rowFrom s c (r+1) fuel

/-- The landing row of a piece dropped in column `c`: `row(self, column)`. -/
def State.row (s : State) (c : Nat) : Nat := rowFrom s c 1 5

/-- `for column in (0..column).rev() { if match, min_column = column else break }`:
argument is the current `min_column` candidate, scanning leftwards. -/
def minColFrom (s : State) (p : Player) (r : Nat) : Nat → Nat
  | 0 => 0
  | c+1 => if s.idx c r = Cell.Set p then minColFrom s p r c else c + 1

/-- `for column in (column + 1)..COLUMNS { if match, max_column = column else break }`:
first argument is the current `max_column`, fuel is the remaining range length. -/
def maxColFrom (s : State) (p : Player) (r : Nat) : Nat → Nat → Nat
  | c, 0 => c
  | c, fuel+1 => if s.idx (c+1) r = Cell.Set p then maxColFrom s p r (c+1) fuel else c

/-- `for row in (0..row).rev() { if match, min_row = row else break }`. -/
def minRowFrom (s : State) (p : Player) (c : Nat) : Nat → Nat
  | 0 => 0
  | r+1 => if s.idx c r = Cell.Set p then minRowFrom s p c r else r + 1

/-- `for row in (row + 1)..ROWS { if match, max_row = row else break }`. -/
def maxRowFrom (s : State) (p : Player) (c : Nat) : Nat → Nat → Nat
  | r, 0 => r
  | r, fuel+1 => if s.idx c (r+1) = Cell.Set p then maxRowFrom s p c (r+1) fuel else r

/-- Bottom-left arm of the `↗` diagonal: `for offset in 1..(ROWS - row).min(column + 1)
{ if self[(column - offset, row + offset)] matches, min -= 1 else break }`. -/
def diagUpMinFrom (s : State) (p : Player) (c r : Nat) : Nat → Nat → Nat → Nat
  | mn, _, 0 => mn
  | mn, off, fuel+1 =>
    if s.idx (c - off) (r + off) = Cell.Set p
    then diagUpMinFrom s p c r (mn - 1) (off + 1) fuel else mn

/-- Top-right arm of the `↗` diagonal: `for offset in 1..(row + 1).min(COLUMNS - column)
{ if self[(column + offset, row - offset)] matches, max += 1 else break }`. -/
def diagUpMaxFrom (s : State) (p : Player) (c r : Nat) : Nat → Nat → Nat → Nat
  | mx, _, 0 => mx
  | mx, off, fuel+1 =>
    if s.idx (c + off) (r - off) = Cell.Set p
    then diagUpMaxFrom s p c r (mx + 1) (off + 1) fuel else mx

/-- Top-left arm of the `↘` diagonal: `for offset in 1..(row.min(column) + 1)
{ if self[(column - offset, row - offset)] matches, min -= 1 else break }`. -/
def diagDownMinFrom (s : State) (p : Player) (c r : Nat) : Nat → Nat → Nat → Nat
  | mn, _, 0 => mn
  | mn, off, fuel+1 =>
    if s.idx (c - off) (r - off) = Cell.Set p
    then diagDownMinFrom s p c r (mn - 1) (off + 1) fuel else mn

/-- Bottom-right arm of the `↘` diagonal: `for offset in 1..(ROWS - row).min(COLUMNS - column)
{ if self[(column + offset, row + offset)] matches, max += 1 else break }`. -/
def diagDownMaxFrom (s : State) (p : Player) (c r : Nat) : Nat → Nat → Nat → Nat
  | mx, _, 0 => mx
  | mx, off, fuel+1 =>
    if s.idx (c + off) (r + off) = Cell.Set p
    then diagDownMaxFrom s p c r (mx + 1) (off + 1) fuel else mx

/-- `let mut new = State(self.0, self.1.other()); new[(column, row)] = Cell::Set(self.1)`. -/
def State.placed (s : State) (c r : Nat) : State :=
  ⟨fun r' c' => if r' = r ∧ c' = c then Cell.Set s.player else s.grid r' c',
   s.player.other⟩

/-- `State::try_move`.  Fuel arguments are the exact lengths of the Rust ranges:
`6 - column` for `(column+1)..COLUMNS`, `5 - row` for `(row+1)..ROWS`, and
`n - 1` for each diagonal range `1..n`. -/
def State.try_move (s : State) (column : Nat) : MoveResult :=
  if s.idx column 0 = Cell.Empty then
    let row := s.row column
    let min_column := minColFrom s s.player row column
    let max_column := maxColFrom s s.player row column (6 - column)
    if max_column - min_column + 1 ≥ 4 then MoveResult.Victory else
    let min_row := minRowFrom s s.player column row
    let max_row := maxRowFrom s s.player column row (5 - row)
    if max_row - min_row + 1 ≥ 4 then MoveResult.Victory else
    let min1 := diagUpMinFrom s s.player column row column 1 (min (6 - row) (column + 1) - 1)
    let max1 := diagUpMaxFrom s s.player column row column 1 (min (row + 1) (7 - column) - 1)
    if max1 - min1 + 1 ≥ 4 then MoveResult.Victory else
    let min2 := diagDownMinFrom s s.player column row column 1 (min row column)
    let max2 := diagDownMaxFrom s s.player column row column 1 (min (6 - row) (7 - column) - 1)
    if max2 - min2 + 1 ≥ 4 then MoveResult.Victory else
    MoveResult.State (s.placed column row)
  else MoveResult.Impossible

inductive Eval where
  | ImmediateVictory : Eval
  | AssuredVictory : Eval
  | AssuredLoss : Eval
  | Neutral : Eval
deriving DecidableEq

/-- `matches!(sit, Eval::ImmediateVictory | Eval::AssuredVictory)`. -/
def isVictoryEval : Eval → Bool
  | Eval.ImmediateVictory => true
  | Eval.AssuredVictory => true
  | _ => false

/-- `matches!(sit, Eval::AssuredLoss)`. -/
def isLossEval : Eval → Bool
  | Eval.AssuredLoss => true
  | _ => false

/-- The `for column in 0..7` scan of `find_next_move`: `Sum.inl c` models the
early `return (smallvec![column], ImmediateVictory)`, `Sum.inr` the collected
`(column, next_state)` candidates.  Fuel is the remaining number of columns. -/
def scanCols (s : State) : Nat → Nat → Sum Nat (List (Nat × State))
  | 0, _ => Sum.inr []
  | fuel+1, c =>
    match s.try_move c with
    | MoveResult.Victory => Sum.inl c
    | MoveResult.Impossible => scanCols s fuel (c+1)
    | MoveResult.State next =>
      match scanCols s fuel (c+1) with
      | Sum.inl w => Sum.inl w
      | Sum.inr rest => Sum.inr ((c, next) :: rest)

/-- In-order overwrite of the pre-allocated result slots: the sequential
`move_states.iter_mut().zip(moves_evals.iter_mut()).for_each(eval)`. -/
def writeSlots (f : Nat × State → Nat × Eval) :
    List (Nat × State) → List (Nat × Eval) → List (Nat × Eval)
  | m :: ms, _ :: slots => f m :: writeSlots f ms slots
  | _, slots => slots

/-- Sequential evaluation: slots initialised to `(255, Neutral)` and then
overwritten in order. -/
def evalSeq (f : Nat × State → Nat × Eval) (ms : List (Nat × State)) : List (Nat × Eval) :=
  writeSlots f ms (List.replicate ms.length (255, Eval.Neutral))

/-- Parallel evaluation (`par_iter_mut().zip(...)`): every index-aligned slot
`i` is written independently with the result for candidate `i`. -/
def evalPar (f : Nat × State → Nat × Eval) (ms : List (Nat × State)) : List (Nat × Eval) :=
  (List.range ms.length).map fun i => f (ms.getD i default)

/-- Body of `find_next_move` with the per-candidate evaluation (the `eval`
closure's recursive part) abstracted as `child`. -/
def find_step (s : State) (child : State → Eval) (parallelize : Bool) : List Nat × Eval :=
  match scanCols s 7 0 with
  | Sum.inl column => ([column], Eval.ImmediateVictory)
  | Sum.inr move_states =>
    let moves_evals :=
      if parallelize then evalPar (fun cs => (cs.1, child cs.2)) move_states
      else evalSeq (fun cs => (cs.1, child cs.2)) move_states
    if moves_evals.all fun pe => isVictoryEval pe.2 then
      (moves_evals.map Prod.fst, Eval.AssuredLoss)
    else if moves_evals.any fun pe => isLossEval pe.2 then
      ((moves_evals.filter fun pe => isLossEval pe.2).map Prod.fst, Eval.AssuredVictory)
    else
      ((moves_evals.filter fun pe => !isVictoryEval pe.2).map Prod.fst, Eval.Neutral)

/-- `find_next_move(state, depth, parallelize)`: the child evaluation is
`if depth > 0 { find_next_move(state, depth - 1, false).1 } else { Neutral }`. -/
def find_next_move (s : State) (depth : Nat) (parallelize : Bool) : List Nat × Eval :=
  match depth with
  | 0 => find_step s (fun _ => Eval.Neutral) parallelize
  | d+1 => find_step s (fun next => (find_next_move next d false).2) parallelize

/-- The evaluation assigned to a candidate successor state at a given
remaining depth budget. -/
def childEval (depth : Nat) (next : State) : Eval :=
  match depth with
  | 0 => Eval.Neutral
  | d+1 => (find_next_move next d false).2

/-- The legal `(column, successor)` candidates in ascending column order. -/
def legalPairs (s : State) : List (Nat × State) :=
  (List.range 7).filterMap fun c =>
    match s.try_move c with
    | MoveResult.State next => some (c, next)
    | _ => none

/-- Build a grid from a row-major list of rows (missing entries are `Empty`). -/
def mkGrid (rows : List (List Cell)) : Nat → Nat → Cell :=
  fun r c => (rows.getD r []).getD c Cell.Empty

def mkState (rows : List (List Cell)) (p : Player) : State := ⟨mkGrid rows, p⟩

/-- A completely full board (every top cell occupied). -/
def fullB : State := mkState [
  [Cell.Set Player.X, Cell.Set Player.O, Cell.Set Player.X, Cell.Set Player.O, Cell.Set Player.X, Cell.Set Player.O, Cell.Set Player.X],
  [Cell.Set Player.O, Cell.Set Player.X, Cell.Set Player.O, Cell.Set Player.X, Cell.Set Player.O, Cell.Set Player.X, Cell.Set Player.O],
  [Cell.Set Player.X, Cell.Set Player.O, Cell.Set Player.X, Cell.Set Player.O, Cell.Set Player.X, Cell.Set Player.O, Cell.Set Player.X],
  [Cell.Set Player.O, Cell.Set Player.X, Cell.Set Player.O, Cell.Set Player.X, Cell.Set Player.O, Cell.Set Player.X, Cell.Set Player.O],
  [Cell.Set Player.X, Cell.Set Player.O, Cell.Set Player.X, Cell.Set Player.O, Cell.Set Player.X, Cell.Set Player.O, Cell.Set Player.X],
  [Cell.Set Player.O, Cell.Set Player.X, Cell.Set Player.O, Cell.Set Player.X, Cell.Set Player.O, Cell.Set Player.X, Cell.Set Player.O]] Player.O

/-- Columns 0–5 full; `O` is forced into column 6, after which `X` wins at once. -/
def lossB : State := mkState [
  [Cell.Set Player.X, Cell.Set Player.O, Cell.Set Player.X, Cell.Set Player.O, Cell.Set Player.X, Cell.Set Player.O, Cell.Empty],
  [Cell.Set Player.O, Cell.Set Player.X, Cell.Set Player.O, Cell.Set Player.X, Cell.Set Player.O, Cell.Set Player.X, Cell.Empty],
  [Cell.Set Player.X, Cell.Set Player.O, Cell.Set Player.X, Cell.Set Player.O, Cell.Set Player.X, Cell.Set Player.O, Cell.Empty],
  [Cell.Set Player.O, Cell.Set Player.X, Cell.Set Player.O, Cell.Set Player.X, Cell.Set Player.O, Cell.Set Player.X, Cell.Empty],
  [Cell.Set Player.X, Cell.Set Player.O, Cell.Set Player.O, Cell.Set Player.X, Cell.Set Player.X, Cell.Set Player.X, Cell.Empty],
  [Cell.Set Player.O, Cell.Set Player.X, Cell.Set Player.O, Cell.Set Player.X, Cell.Set Player.O, Cell.Set Player.X, Cell.Empty]] Player.O

/-- `O` to move: playing column 4 creates an open three `O O O` on the bottom
row, which forces a win; other columns stay neutral at depth 2. -/
def winB : State := mkState [
  [], [], [], [], [],
  [Cell.Set Player.X, Cell.Empty, Cell.Set Player.O, Cell.Set Player.O, Cell.Empty, Cell.Empty, Cell.Set Player.X]] Player.O

/-- The empty board. -/
def emptyB : State := mkState [] Player.O

/-- `O` completes a vertical four by dropping into column 0. -/
def vertB : State := mkState [
  [], [], [],
  [Cell.Set Player.O, Cell.Empty, Cell.Empty, Cell.Empty, Cell.Empty, Cell.Empty, Cell.Empty],
  [Cell.Set Player.O, Cell.Empty, Cell.Empty, Cell.Empty, Cell.Empty, Cell.Empty, Cell.Empty],
  [Cell.Set Player.O, Cell.Set Player.X, Cell.Set Player.X, Cell.Empty, Cell.Empty, Cell.Empty, Cell.Empty]] Player.O

/-- Horizontal mirror of the board, as the symmetry claim describes it:
cell `(c, r)` of the mirror is cell `(6 - c, r)` of the original. -/
def mirror (s : State) : State :=
  ⟨fun r c => s.grid r (6 - c), s.player⟩

/-- Swap of the two player labels in every occupied cell and in the turn
player, as the symmetry claim describes it. -/
def swapPlayers (s : State) : State :=
  ⟨fun r c =>
    match s.grid r c with
    | Cell.Empty => Cell.Empty
    | Cell.Set p => Cell.Set p.other,
   s.player.other⟩

/-- Length of the run of consecutive cells owned by `p` along the probe
sequence `f off, f (off+1), …` (column–row pairs), stopping at the first
mismatch; at most `fuel` cells are probed.  Every directional scan of
`try_move` is `base ± cnt` for a suitable probe sequence. -/
def cnt (s : State) (p : Player) (f : Nat → Nat × Nat) : Nat → Nat → Nat
  | _, 0 => 0
  | off, fuel+1 =>
    if s.idx (f off).1 (f off).2 = Cell.Set p then cnt s p f (off+1) fuel + 1 else 0

/-! ### Checked (panic-modelling) version of `try_move` for the totality claim.

Rust's debug-mode semantics panic on an out-of-bounds array index and on `u8`
subtraction underflow.  The functions below mirror `try_move` exactly but
return `none` wherever the original Rust would panic: every grid access goes
through `idx?` (bounds-checked) and every `u8` subtraction through `sub?`
(underflow-checked).  The totality theorem states that on every board and
every in-range column the checked function returns `some` of the unchecked
result. -/

/-- Bounds-checked grid access: `none` models an index-out-of-bounds panic. -/
def idx? (s : State) (c r : Nat) : Option Cell :=
  if c < 7 ∧ r < 6 then some (s.idx c r) else none

/-- Checked `u8` subtraction: `none` models an underflow panic. -/
def sub? (a b : Nat) : Option Nat :=
  if b ≤ a then some (a - b) else none

/-- Bounds-checked write of the landing cell (the `IndexMut` access). -/
def setCell? (s : State) (c r : Nat) : Option State :=
  if c < 7 ∧ r < 6 then some (s.placed c r) else none

def rowFromC (s : State) (c : Nat) : Nat → Nat → Option Nat
  | _, 0 => some 5
  | r, fuel+1 =>
    match idx? s c r with
    | none => none
    | some (Cell.Set _) => sub? r 1
    | some Cell.Empty => rowFromC s c (r+1) fuel

def minColFromC (s : State) (p : Player) (r : Nat) : Nat → Option Nat
  | 0 => some 0
  | c+1 =>
    match idx? s c r with
    | none => none
    | some cell => if cell = Cell.Set p then minColFromC s p r c else some (c + 1)

def maxColFromC (s : State) (p : Player) (r : Nat) : Nat → Nat → Option Nat
  | c, 0 => some c
  | c, fuel+1 =>
    match idx? s (c+1) r with
    | none => none
    | some cell => if cell = Cell.Set p then maxColFromC s p r (c+1) fuel else some c

def minRowFromC (s : State) (p : Player) (c : Nat) : Nat → Option Nat
  | 0 => some 0
  | r+1 =>
    match idx? s c r with
    | none => none
    | some cell => if cell = Cell.Set p then minRowFromC s p c r else some (r + 1)

def maxRowFromC (s : State) (p : Player) (c : Nat) : Nat → Nat → Option Nat
  | r, 0 => some r
  | r, fuel+1 =>
    match idx? s c (r+1) with
    | none => none
    | some cell => if cell = Cell.Set p then maxRowFromC s p c (r+1) fuel else some r

def diagUpMinFromC (s : State) (p : Player) (c r : Nat) : Nat → Nat → Nat → Option Nat
  | mn, _, 0 => some mn
  | mn, off, fuel+1 =>
    match sub? c off with
    | none => none
    | some cc =>
      match idx? s cc (r + off) with
      | none => none
      | some cell =>
        if cell = Cell.Set p then
          match sub? mn 1 with
          | none => none
          | some mn' => diagUpMinFromC s p c r mn' (off + 1) fuel
        else some mn

def diagUpMaxFromC (s : State) (p : Player) (c r : Nat) : Nat → Nat → Nat → Option Nat
  | mx, _, 0 => some mx
  | mx, off, fuel+1 =>
    match sub? r off with
    | none => none
    | some rr =>
      match idx? s (c + off) rr with
      | none => none
      | some cell =>
        if cell = Cell.Set p then diagUpMaxFromC s p c r (mx + 1) (off + 1) fuel
        else some mx

def diagDownMinFromC (s : State) (p : Player) (c r : Nat) : Nat → Nat → Nat → Option Nat
  | mn, _, 0 => some mn
  | mn, off, fuel+1 =>
    match sub? c off with
    | none => none
    | some cc =>
      match sub? r off with
      | none => none
      | some rr =>
        match idx? s cc rr with
        | none => none
        | some cell =>
          if cell = Cell.Set p then
            match sub? mn 1 with
            | none => none
            | some mn' => diagDownMinFromC s p c r mn' (off + 1) fuel
          else some mn

def diagDownMaxFromC (s : State) (p : Player) (c r : Nat) : Nat → Nat → Nat → Option Nat
  | mx, _, 0 => some mx
  | mx, off, fuel+1 =>
    match idx? s (c + off) (r + off) with
    | none => none
    | some cell =>
      if cell = Cell.Set p then diagDownMaxFromC s p c r (mx + 1) (off + 1) fuel
      else some mx

/-- `try_move` with every array access and every `u8` subtraction checked;
`none` models a panic.  `sub? 6 row` and `sub? 7 column` are the
`ROWS - row` / `COLUMNS - column` subtractions in the diagonal range bounds. -/
def try_move_checked (s : State) (column : Nat) : Option MoveResult :=
  match idx? s column 0 with
  | none => none
  | some top =>
    if top = Cell.Empty then
      match rowFromC s column 1 5 with
      | none => none
      | some row =>
        match minColFromC s s.player row column with
        | none => none
        | some min_column =>
          match maxColFromC s s.player row column (6 - column) with
          | none => none
          | some max_column =>
            match sub? max_column min_column with
            | none => none
            | some dh =>
              if dh + 1 ≥ 4 then some MoveResult.Victory else
              match minRowFromC s s.player column row with
              | none => none
              | some min_row =>
                match maxRowFromC s s.player column row (5 - row) with
                | none => none
                | some max_row =>
                  match sub? max_row min_row with
                  | none => none
                  | some dv =>
                    if dv + 1 ≥ 4 then some MoveResult.Victory else
                    match sub? 6 row with
                    | none => none
                    | some rowsLeft =>
                      match sub? 7 column with
                      | none => none
                      | some colsLeft =>
                        match diagUpMinFromC s s.player column row column 1
                            (min rowsLeft (column + 1) - 1) with
                        | none => none
                        | some min1 =>
                          match diagUpMaxFromC s s.player column row column 1
                              (min (row + 1) colsLeft - 1) with
                          | none => none
                          | some max1 =>
                            match sub? max1 min1 with
                            | none => none
                            | some d1 =>
                              if d1 + 1 ≥ 4 then some MoveResult.Victory else
                              match diagDownMinFromC s s.player column row column 1
                                  (min row column) with
                              | none => none
                              | some min2 =>
                                match diagDownMaxFromC s s.player column row column 1
                                    (min rowsLeft colsLeft - 1) with
                                | none => none
                                | some max2 =>
                                  match sub? max2 min2 with
                                  | none => none
                                  | some d2 =>
                                    if d2 + 1 ≥ 4 then some MoveResult.Victory
                                    else
                                      match setCell? s column row with
                                      | none => none
                                      | some next => some (MoveResult.State next)
    else some MoveResult.Impossible

/-! ### Bridging lemmas -/

theorem find_next_move_eq_step (s : State) (d : Nat) (par : Bool) :
    find_next_move s d par = find_step s (childEval d) par := by
  cases d <;> rfl

theorem writeSlots_replicate (f : Nat × State → Nat × Eval) :
    ∀ (ms : List (Nat × State)) (n : Nat) (x : Nat × Eval), n = ms.length →
      writeSlots f ms (List.replicate n x) = ms.map f
  | [], n, x, h => by subst h; rfl
  | m :: ms, n, x, h => by
    subst h
    rw [List.length_cons, List.replicate_succ]
    show f m :: writeSlots f ms (List.replicate ms.length x) = f m :: ms.map f
    rw [writeSlots_replicate f ms ms.length x rfl]

theorem evalSeq_eq_map (f : Nat × State → Nat × Eval) (ms : List (Nat × State)) :
    evalSeq f ms = ms.map f :=
  writeSlots_replicate f ms ms.length (255, Eval.Neutral) rfl

theorem range_map_getD {α β : Type} [Inhabited α] (f : α → β) :
    ∀ (l : List α), (List.range l.length).map (fun i => f (l.getD i default)) = l.map f
  | [] => rfl
  | a :: l => by
    rw [List.length_cons, List.range_succ_eq_map, List.map_cons, List.map_map, List.map_cons]
    have h : ((fun i => f ((a :: l).getD i default)) ∘ Nat.succ) =
        fun i => f (l.getD i default) := by
      funext i; rfl
    rw [h, range_map_getD f l]
    rfl

theorem evalPar_eq_map (f : Nat × State → Nat × Eval) (ms : List (Nat × State)) :
    evalPar f ms = ms.map f :=
  range_map_getD f ms

theorem find_step_inl {s : State} {w : Nat} {ch : State → Eval} {par : Bool}
    (h : scanCols s 7 0 = Sum.inl w) :
    find_step s ch par = ([w], Eval.ImmediateVictory) := by
  unfold find_step; rw [h]

theorem find_step_inr {s : State} {ms : List (Nat × State)} {ch : State → Eval} {par : Bool}
    (h : scanCols s 7 0 = Sum.inr ms) :
    find_step s ch par =
      (if (ms.map fun cs => (cs.1, ch cs.2)).all (fun pe => isVictoryEval pe.2) then
        ((ms.map fun cs => (cs.1, ch cs.2)).map Prod.fst, Eval.AssuredLoss)
      else if (ms.map fun cs => (cs.1, ch cs.2)).any (fun pe => isLossEval pe.2) then
        (((ms.map fun cs => (cs.1, ch cs.2)).filter fun pe => isLossEval pe.2).map Prod.fst,
         Eval.AssuredVictory)
      else
        (((ms.map fun cs => (cs.1, ch cs.2)).filter fun pe => !isVictoryEval pe.2).map Prod.fst,
         Eval.Neutral)) := by
  unfold find_step
  rw [h]
  cases par <;> simp only [evalSeq_eq_map, evalPar_eq_map, Bool.false_eq_true, if_true, if_false]

theorem scanCols_succ (s : State) (fuel c0 : Nat) :
    scanCols s (fuel+1) c0 =
      match s.try_move c0 with
      | MoveResult.Victory => Sum.inl c0
      | MoveResult.Impossible => scanCols s fuel (c0+1)
      | MoveResult.State next =>
        match scanCols s fuel (c0+1) with
        | Sum.inl w => Sum.inl w
        | Sum.inr rest => Sum.inr ((c0, next) :: rest) := rfl

theorem scanCols_no_victory (s : State) :
    ∀ (fuel c0 : Nat), (∀ c, c0 ≤ c → c < c0 + fuel → isVictory (s.try_move c) = false) →
      scanCols s fuel c0 = Sum.inr ((List.range' c0 fuel).filterMap fun c =>
        match s.try_move c with
        | MoveResult.State next => some (c, next)
        | _ => none) := by
  intro fuel
  induction fuel with
  | zero => intro c0 _; rfl
  | succ fuel ih =>
    intro c0 h
    have hc0 : isVictory (s.try_move c0) = false := h c0 (Nat.le_refl _) (by omega)
    rw [List.range'_succ, List.filterMap_cons, scanCols_succ]
    cases htm : s.try_move c0 with
    | Victory => rw [htm] at hc0; simp [isVictory] at hc0
    | Impossible =>
      rw [ih (c0+1) (fun c h1 h2 => h c (by omega) (by omega))]
    | State next =>
      rw [ih (c0+1) (fun c h1 h2 => h c (by omega) (by omega))]

theorem scanCols_eq_legalPairs {s : State}
    (h : ∀ c, c < 7 → isVictory (s.try_move c) = false) :
    scanCols s 7 0 = Sum.inr (legalPairs s) := by
  rw [scanCols_no_victory s 7 0 (fun c _ h2 => h c (by omega))]
  unfold legalPairs
  rw [List.range_eq_range']

theorem scanCols_first_victory (s : State) :
    ∀ (fuel c0 w : Nat), c0 ≤ w → w < c0 + fuel → isVictory (s.try_move w) = true →
      (∀ c, c0 ≤ c → c < w → isVictory (s.try_move c) = false) →
      scanCols s fuel c0 = Sum.inl w := by
  intro fuel
  induction fuel with
  | zero => intro c0 w h1 h2 _ _; omega
  | succ fuel ih =>
    intro c0 w h1 h2 hv hmin
    by_cases hc : c0 = w
    · subst hc
      cases htm : s.try_move c0 with
      | Victory => rw [scanCols_succ, htm]
      | Impossible => rw [htm] at hv; simp [isVictory] at hv
      | State next => rw [htm] at hv; simp [isVictory] at hv
    · have hlt : c0 < w := by omega
      have hc0 : isVictory (s.try_move c0) = false := hmin c0 (Nat.le_refl _) hlt
      cases htm : s.try_move c0 with
      | Victory => rw [htm] at hc0; simp [isVictory] at hc0
      | Impossible =>
        rw [scanCols_succ, htm]
        exact ih (c0+1) w (by omega) (by omega) hv (fun c ha hb => hmin c (by omega) hb)
      | State next =>
        rw [scanCols_succ, htm,
          ih (c0+1) w (by omega) (by omega) hv (fun c ha hb => hmin c (by omega) hb)]

theorem try_move_of_full {s : State} {c : Nat} (h : ¬ s.idx c 0 = Cell.Empty) :
    s.try_move c = MoveResult.Impossible := by
  unfold State.try_move; rw [if_neg h]

theorem all_map_het {α β : Type} (f : α → β) (p : β → Bool) :
    ∀ l : List α, (l.map f).all p = l.all fun a => p (f a)
  | [] => rfl
  | a :: l => by
    simp only [List.map_cons, List.all_cons, all_map_het f p l]

theorem any_map_het {α β : Type} (f : α → β) (p : β → Bool) :
    ∀ l : List α, (l.map f).any p = l.any fun a => p (f a)
  | [] => rfl
  | a :: l => by
    simp only [List.map_cons, List.any_cons, any_map_het f p l]

/-! ### Claims about the search (C1–C5, C9) -/

/-- Claim C1, amended: on a board where every column is full (the top cell of
every column is occupied) `find_next_move` returns the empty move set together
with `AssuredLoss` — not `Neutral` as the specification claims — for every
depth budget and either value of the parallel flag. -/
theorem c1_full_board (s : State) (d : Nat) (par : Bool)
    (hfull : ∀ c, c < 7 → s.idx c 0 ≠ Cell.Empty) :
    find_next_move s d par = ([], Eval.AssuredLoss) := by
  have hnv : ∀ c, c < 7 → isVictory (s.try_move c) = false := by
    intro c hc; rw [try_move_of_full (hfull c hc)]; rfl
  have hlp : legalPairs s = [] := by
    unfold legalPairs
    rw [List.filterMap_eq_nil_iff]
    intro c hcmem
    rw [try_move_of_full (hfull c (List.mem_range.mp hcmem))]
  rw [find_next_move_eq_step, find_step_inr (scanCols_eq_legalPairs hnv), hlp]
  simp

theorem c1_full_board_witness :
    (∀ c, c < 7 → fullB.idx c 0 ≠ Cell.Empty) ∧
      find_next_move fullB 2 true = ([], Eval.AssuredLoss) :=
  ⟨by decide, c1_full_board fullB 2 true (by decide)⟩

/-- Counterexample to claim C1 as stated: `fullB` is a board on which every
column is full, yet `find_next_move` does not return `(∅, Neutral)` — the
evaluation it returns is `AssuredLoss`. -/
theorem c1_counterexample :
    (∀ c, c < 7 → fullB.idx c 0 ≠ Cell.Empty) ∧
      find_next_move fullB 0 false ≠ ([], Eval.Neutral) := by
  exact ⟨by decide, by decide⟩

/-- Claim C2: if no column wins immediately, at least one legal move exists
and every candidate's recursive evaluation is `ImmediateVictory` or
`AssuredVictory` for the opponent, then `find_next_move` returns `AssuredLoss`
and the move set still contains every legal column (nothing is filtered). -/
theorem c2_all_replies_win (s : State) (d : Nat) (par : Bool)
    (hnv : ∀ c, c < 7 → isVictory (s.try_move c) = false)
    (hne : 0 < (legalPairs s).length)
    (hall : ∀ p, p ∈ legalPairs s → isVictoryEval (childEval d p.2) = true) :
    find_next_move s d par = ((legalPairs s).map Prod.fst, Eval.AssuredLoss) := by
  rw [find_next_move_eq_step, find_step_inr (scanCols_eq_legalPairs hnv)]
  have hcond : ((legalPairs s).map fun cs => (cs.1, childEval d cs.2)).all
      (fun pe => isVictoryEval pe.2) = true := by
    rw [all_map_het, List.all_eq_true]
    exact fun x hx => hall x hx
  rw [if_pos hcond, List.map_map]
  have hfst : (Prod.fst ∘ fun cs : Nat × State => (cs.1, childEval d cs.2)) = Prod.fst := rfl
  rw [hfst]

theorem c2_all_replies_win_witness :
    0 < (legalPairs lossB).length ∧
      find_next_move lossB 1 false = ((legalPairs lossB).map Prod.fst, Eval.AssuredLoss) :=
  ⟨by decide, c2_all_replies_win lossB 1 false (by decide) (by decide) (by decide)⟩

/-- Claim C3: if no column wins immediately, not every candidate hands the
opponent a win, and some candidate's recursive evaluation is `AssuredLoss`
(for the opponent), then `find_next_move` returns `AssuredVictory` and the
move set is exactly the candidates evaluating to `AssuredLoss`, in ascending
column order. -/
theorem c3_forced_win (s : State) (d : Nat) (par : Bool)
    (hnv : ∀ c, c < 7 → isVictory (s.try_move c) = false)
    (hmix : ∃ p, p ∈ legalPairs s ∧ isVictoryEval (childEval d p.2) = false)
    (hloss : ∃ p, p ∈ legalPairs s ∧ isLossEval (childEval d p.2) = true) :
    find_next_move s d par =
      (((legalPairs s).filter fun p => isLossEval (childEval d p.2)).map Prod.fst,
       Eval.AssuredVictory) := by
  rw [find_next_move_eq_step, find_step_inr (scanCols_eq_legalPairs hnv)]
  obtain ⟨q, hq, hqf⟩ := hmix
  obtain ⟨q2, hq2, hq2t⟩ := hloss
  have hcond1 : ¬ (((legalPairs s).map fun cs => (cs.1, childEval d cs.2)).all
      (fun pe => isVictoryEval pe.2) = true) := by
    rw [all_map_het, List.all_eq_true]
    intro hh
    exact Bool.noConfusion (hqf.symm.trans (hh q hq))
  rw [if_neg hcond1]
  have hcond2 : (((legalPairs s).map fun cs => (cs.1, childEval d cs.2)).any
      (fun pe => isLossEval pe.2)) = true := by
    rw [any_map_het, List.any_eq_true]
    exact ⟨q2, hq2, hq2t⟩
  rw [if_pos hcond2, List.filter_map, List.map_map]
  rfl

theorem c3_forced_win_witness :
    (∃ p, p ∈ legalPairs winB ∧ isLossEval (childEval 2 p.2) = true) ∧
      find_next_move winB 2 true =
        (((legalPairs winB).filter fun p => isLossEval (childEval 2 p.2)).map Prod.fst,
         Eval.AssuredVictory) :=
  ⟨by decide, c3_forced_win winB 2 true (by decide) (by decide) (by decide)⟩

/-- Claim C4: if no column wins immediately, at least one legal move exists,
no candidate evaluates to `AssuredLoss`, and at least one candidate is neither
`ImmediateVictory` nor `AssuredVictory`, then `find_next_move` returns
`Neutral` and the move set is exactly the candidates that do not hand the
opponent a win, in ascending column order. -/
theorem c4_neutral (s : State) (d : Nat) (par : Bool)
    (hnv : ∀ c, c < 7 → isVictory (s.try_move c) = false)
    (hne : 0 < (legalPairs s).length)
    (hnoloss : ∀ p, p ∈ legalPairs s → isLossEval (childEval d p.2) = false)
    (hmix : ∃ p, p ∈ legalPairs s ∧ isVictoryEval (childEval d p.2) = false) :
    find_next_move s d par =
      (((legalPairs s).filter fun p => !isVictoryEval (childEval d p.2)).map Prod.fst,
       Eval.Neutral) := by
  rw [find_next_move_eq_step, find_step_inr (scanCols_eq_legalPairs hnv)]
  obtain ⟨q, hq, hqf⟩ := hmix
  have hcond1 : ¬ (((legalPairs s).map fun cs => (cs.1, childEval d cs.2)).all
      (fun pe => isVictoryEval pe.2) = true) := by
    rw [all_map_het, List.all_eq_true]
    intro hh
    exact Bool.noConfusion (hqf.symm.trans (hh q hq))
  rw [if_neg hcond1]
  have hcond2 : ¬ (((legalPairs s).map fun cs => (cs.1, childEval d cs.2)).any
      (fun pe => isLossEval pe.2) = true) := by
    rw [any_map_het, List.any_eq_true]
    rintro ⟨x, hx, hpx⟩
    exact Bool.noConfusion ((hnoloss x hx).symm.trans hpx)
  rw [if_neg hcond2, List.filter_map, List.map_map]
  rfl

theorem c4_neutral_witness :
    0 < (legalPairs emptyB).length ∧
      find_next_move emptyB 1 true =
        (((legalPairs emptyB).filter fun p => !isVictoryEval (childEval 1 p.2)).map Prod.fst,
         Eval.Neutral) :=
  ⟨by decide, c4_neutral emptyB 1 true (by decide) (by decide) (by decide) (by decide)⟩

/-- Claim C5: if column `w` is the smallest column whose `try_move` yields
`Victory`, then `find_next_move` returns `([w], ImmediateVictory)` for every
depth budget and either value of the parallel flag. -/
theorem c5_immediate_win (s : State) (d : Nat) (par : Bool) (w : Nat)
    (hw : w < 7)
    (hv : isVictory (s.try_move w) = true)
    (hfirst : ∀ c, c < w → isVictory (s.try_move c) = false) :
    find_next_move s d par = ([w], Eval.ImmediateVictory) := by
  rw [find_next_move_eq_step]
  exact find_step_inl
    (scanCols_first_victory s 7 0 w (Nat.zero_le _) (by omega) hv (fun c _ h2 => hfirst c h2))

theorem c5_immediate_win_witness :
    isVictory (vertB.try_move 0) = true ∧
      find_next_move vertB 5 true = ([0], Eval.ImmediateVictory) :=
  ⟨by decide, c5_immediate_win vertB 5 true 0 (by decide) (by decide) (by decide)⟩

/-- Claim C7: for an in-range column, `try_move` returns `Impossible`
(`Rejected`) exactly when the top cell of that column is occupied: a full
column never yields `Victory` or a successor state, and a non-full column is
never rejected. -/
theorem c7_rejected_iff (s : State) (c : Nat) (hc : c < 7) :
    s.try_move c = MoveResult.Impossible ↔ s.idx c 0 ≠ Cell.Empty := by
  constructor
  · intro h he
    simp only [State.try_move] at h
    rw [if_pos he] at h
    split_ifs at h <;> exact MoveResult.noConfusion h
  · exact fun h => try_move_of_full h

theorem c7_rejected_iff_witness :
    (0 < 7 ∧ (fullB.try_move 0 = MoveResult.Impossible ↔ fullB.idx 0 0 ≠ Cell.Empty)) ∧
      (6 < 7 ∧ (lossB.try_move 6 = MoveResult.Impossible ↔ lossB.idx 6 0 ≠ Cell.Empty)) :=
  ⟨⟨by decide, c7_rejected_iff fullB 0 (by decide)⟩,
   ⟨by decide, c7_rejected_iff lossB 6 (by decide)⟩⟩

/-! ### Claim C6: the frame effect of a `Continues` move -/

theorem rowFrom_succ (s : State) (c r fuel : Nat) :
    rowFrom s c r (fuel+1) =
      match s.idx c r with
      | Cell.Set _ => r - 1
      | Cell.Empty => rowFrom s c (r+1) fuel := rfl

theorem rowFrom_spec (s : State) (c : Nat) :
    ∀ (fuel r : Nat), 1 ≤ r → r + fuel = 6 →
      (∀ r', r' < r → s.idx c r' = Cell.Empty) →
      (∀ r', r' ≤ rowFrom s c r fuel → s.idx c r' = Cell.Empty) ∧
        (rowFrom s c r fuel = 5 ∨ s.idx c (rowFrom s c r fuel + 1) ≠ Cell.Empty) ∧
        rowFrom s c r fuel < 6 := by
  intro fuel
  induction fuel with
  | zero =>
    intro r h1 h6 habove
    have h5 : rowFrom s c r 0 = 5 := rfl
    rw [h5]
    exact ⟨fun r' hr' => habove r' (by omega), Or.inl rfl, by omega⟩
  | succ fuel ih =>
    intro r h1 h6 habove
    cases hcell : s.idx c r with
    | Set p =>
      have hrow : rowFrom s c r (fuel+1) = r - 1 := by rw [rowFrom_succ, hcell]
      rw [hrow]
      refine ⟨fun r' hr' => habove r' (by omega), Or.inr ?_, by omega⟩
      have hr : r - 1 + 1 = r := by omega
      rw [hr, hcell]
      exact fun hcontra => Cell.noConfusion hcontra
    | Empty =>
      have hrow : rowFrom s c r (fuel+1) = rowFrom s c (r+1) fuel := by
        rw [rowFrom_succ, hcell]
      rw [hrow]
      refine ih (r+1) (by omega) (by omega) ?_
      intro r' hr'
      rcases Nat.lt_or_ge r' r with hlt | hge
      · exact habove r' hlt
      · have : r' = r := by omega
        rw [this, hcell]

theorem row_spec (s : State) (c : Nat) (h0 : s.idx c 0 = Cell.Empty) :
    (∀ r', r' ≤ s.row c → s.idx c r' = Cell.Empty) ∧
      (s.row c = 5 ∨ s.idx c (s.row c + 1) ≠ Cell.Empty) ∧ s.row c < 6 := by
  refine rowFrom_spec s c 5 1 (by omega) (by omega) ?_
  intro r' hr'
  have : r' = 0 := by omega
  rw [this]
  exact h0

theorem try_move_state_eq (s : State) (c : Nat) (hs : isState (s.try_move c) = true) :
    s.try_move c = MoveResult.State (s.placed c (s.row c)) ∧ s.idx c 0 = Cell.Empty := by
  by_cases he : s.idx c 0 = Cell.Empty
  · refine ⟨?_, he⟩
    simp only [State.try_move] at hs ⊢
    rw [if_pos he] at hs ⊢
    split_ifs at hs ⊢ <;> first
      | rfl
      | exact Bool.noConfusion hs
  · rw [try_move_of_full he] at hs
    exact Bool.noConfusion hs

theorem countP_set_empty :
    ∀ (l : List Cell) (i : Nat) (h : i < l.length), l[i] = Cell.Empty → ∀ p : Player,
      (l.set i (Cell.Set p)).countP Cell.isSet = l.countP Cell.isSet + 1
  | [], i, h, _, _ => absurd h (by simp)
  | a :: t, 0, h, he, p => by
    rw [List.getElem_cons_zero] at he
    subst he
    simp [List.countP_cons, Cell.isSet]
  | a :: t, i+1, h, he, p => by
    have ht : i < t.length := by simpa using h
    rw [List.getElem_cons_succ] at he
    rw [List.set_cons_succ]
    simp only [List.countP_cons]
    rw [countP_set_empty t i ht he p]
    omega

theorem sum_set_succ :
    ∀ (l : List Nat) (i : Nat) (h : i < l.length) (a : Nat),
      a = l[i] + 1 → (l.set i a).sum = l.sum + 1
  | [], i, h, _, _ => absurd h (by simp)
  | x :: t, 0, h, a, ha => by
    rw [List.getElem_cons_zero] at ha
    subst ha
    simp [List.sum_cons]
    omega
  | x :: t, i+1, h, a, ha => by
    have ht : i < t.length := by simpa using h
    rw [List.getElem_cons_succ] at ha
    rw [List.set_cons_succ]
    simp only [List.sum_cons]
    rw [sum_set_succ t i ht a ha]
    omega

theorem length_rowList (g : Nat → Nat → Cell) (r : Nat) : (rowList g r).length = 7 := by
  simp [rowList]

theorem getElem_rowList (g : Nat → Nat → Cell) (r k : Nat) (hk : k < (rowList g r).length) :
    (rowList g r)[k] = g r k := by
  simp [rowList]

theorem length_gridRows (g : Nat → Nat → Cell) : (gridRows g).length = 6 := by
  simp [gridRows]

theorem getElem_gridRows (g : Nat → Nat → Cell) (j : Nat) (hj : j < (gridRows g).length) :
    (gridRows g)[j] = rowList g j := by
  simp [gridRows]

theorem gridRows_placed (s : State) (c r : Nat) (hc : c < 7) (hr : r < 6) :
    gridRows (s.placed c r).grid =
      (gridRows s.grid).set r ((rowList s.grid r).set c (Cell.Set s.player)) := by
  apply List.ext_getElem
  · rw [length_gridRows, List.length_set, length_gridRows]
  · intro j h1 h2
    rw [getElem_gridRows, List.getElem_set]
    by_cases hjr : r = j
    · subst hjr
      rw [if_pos rfl]
      apply List.ext_getElem
      · rw [length_rowList, List.length_set, length_rowList]
      · intro k k1 k2
        rw [getElem_rowList, List.getElem_set]
        by_cases hkc : c = k
        · subst hkc
          rw [if_pos rfl]
          show (if r = r ∧ c = c then Cell.Set s.player else s.grid r c) = Cell.Set s.player
          rw [if_pos ⟨rfl, rfl⟩]
        · rw [if_neg hkc, getElem_rowList]
          show (if r = r ∧ k = c then Cell.Set s.player else s.grid r k) = s.grid r k
          rw [if_neg (fun hand => hkc hand.2.symm)]
    · rw [if_neg hjr, getElem_gridRows]
      unfold rowList
      apply List.map_congr_left
      intro k _
      show (if j = r ∧ k = c then Cell.Set s.player else s.grid j k) = s.grid j k
      rw [if_neg (fun hand => hjr hand.1.symm)]

theorem turn_placed (s : State) (c r : Nat) (hc : c < 7) (hr : r < 6)
    (he : s.idx c r = Cell.Empty) :
    (s.placed c r).turn = s.turn + 1 := by
  show ((gridRows (s.placed c r).grid).flatten).countP Cell.isSet
      = ((gridRows s.grid).flatten).countP Cell.isSet + 1
  rw [gridRows_placed s c r hc hr, List.countP_flatten, List.countP_flatten, List.map_set]
  have hrlen : r < ((gridRows s.grid).map (List.countP Cell.isSet)).length := by
    rw [List.length_map, length_gridRows]; exact hr
  apply sum_set_succ _ r hrlen
  rw [List.getElem_map, getElem_gridRows]
  exact countP_set_empty (rowList s.grid r) c (by rw [length_rowList]; exact hc)
    (by rw [getElem_rowList]; exact he) s.player

/-- Claim C6: whenever `try_move` returns `Continues(next)` for an in-range
column, `next`'s turn player is the opponent, `next` has exactly one more
occupied cell, the landing cell — the lowest cell of the empty top segment of
the column (it is empty, everything above it is empty, and the cell below it,
if any, is occupied) — is set to the mover, and every other cell is
unchanged. -/
theorem c6_continues_frame (s : State) (c : Nat) (hc : c < 7)
    (hs : isState (s.try_move c) = true) :
    ((s.try_move c).getState).player = s.player.other ∧
    ((s.try_move c).getState).turn = s.turn + 1 ∧
    ((s.try_move c).getState).idx c (s.row c) = Cell.Set s.player ∧
    s.idx c (s.row c) = Cell.Empty ∧
    (∀ c' r', ¬ (c' = c ∧ r' = s.row c) →
      ((s.try_move c).getState).idx c' r' = s.idx c' r') ∧
    (s.row c = 5 ∨ s.idx c (s.row c + 1) ≠ Cell.Empty) := by
  obtain ⟨htm, he⟩ := try_move_state_eq s c hs
  obtain ⟨hEmptyUp, hsupport, hlt⟩ := row_spec s c he
  rw [htm]
  simp only [MoveResult.getState]
  refine ⟨rfl, ?_, ?_, hEmptyUp _ (Nat.le_refl _), ?_, hsupport⟩
  · exact turn_placed s c (s.row c) hc hlt (hEmptyUp _ (Nat.le_refl _))
  · show (if s.row c = s.row c ∧ c = c then Cell.Set s.player else s.grid (s.row c) c)
        = Cell.Set s.player
    rw [if_pos ⟨rfl, rfl⟩]
  · intro c' r' hne
    show (if r' = s.row c ∧ c' = c then Cell.Set s.player else s.grid r' c') = s.idx c' r'
    rw [if_neg (fun hand => hne ⟨hand.2, hand.1⟩)]
    rfl

theorem c6_continues_frame_witness :
    isState (emptyB.try_move 3) = true ∧
      ((emptyB.try_move 3).getState).turn = emptyB.turn + 1 ∧
      ((emptyB.try_move 3).getState).player = emptyB.player.other :=
  ⟨by decide,
   (c6_continues_frame emptyB 3 (by decide) (by decide)).2.1,
   (c6_continues_frame emptyB 3 (by decide) (by decide)).1⟩

/-- Claim C9: `find_next_move` returns exactly the same `(moves, evaluation)`
pair with the parallel fan-out enabled as with it disabled, for every board
and every depth budget: the parallel path writes each result into its
index-aligned slot, so both paths compute the in-order list of results. -/
theorem c9_parallel_irrelevant (s : State) (d : Nat) :
    find_next_move s d true = find_next_move s d false := by
  rw [find_next_move_eq_step, find_next_move_eq_step]
  cases hsc : scanCols s 7 0 with
  | inl w => rw [find_step_inl hsc, find_step_inl hsc]
  | inr ms => rw [find_step_inr hsc, find_step_inr hsc]

/-! ### Claim C10: symmetry of win detection -/

theorem cnt_le (s : State) (p : Player) (f : Nat → Nat × Nat) :
    ∀ (fuel off : Nat), cnt s p f off fuel ≤ fuel := by
  intro fuel
  induction fuel with
  | zero => intro off; exact Nat.le_refl 0
  | succ fuel ih =>
    intro off
    simp only [cnt]
    split_ifs
    · exact Nat.succ_le_succ (ih (off+1))
    · exact Nat.zero_le _

theorem cnt_congr {s t : State} {p q : Player} {f g : Nat → Nat × Nat} :
    ∀ {fuel off : Nat},
      (∀ o, off ≤ o → o < off + fuel →
        (s.idx (f o).1 (f o).2 = Cell.Set p ↔ t.idx (g o).1 (g o).2 = Cell.Set q)) →
      cnt s p f off fuel = cnt t q g off fuel := by
  intro fuel
  induction fuel with
  | zero => intro off _; rfl
  | succ fuel ih =>
    intro off h
    simp only [cnt]
    have hiff := h off (Nat.le_refl _) (by omega)
    by_cases hs : s.idx (f off).1 (f off).2 = Cell.Set p
    · rw [if_pos hs, if_pos (hiff.mp hs), ih (fun o h1 h2 => h o (by omega) (by omega))]
    · rw [if_neg hs, if_neg (fun ht => hs (hiff.mpr ht))]

theorem cnt_shift (s : State) (p : Player) :
    ∀ (fuel : Nat) (f : Nat → Nat × Nat) (off : Nat),
      cnt s p f (off+1) fuel = cnt s p (fun o => f (o+1)) off fuel := by
  intro fuel
  induction fuel with
  | zero => intro f off; rfl
  | succ fuel ih =>
    intro f off
    simp only [cnt]
    rw [ih f (off+1)]

theorem minColFrom_eq_cnt (s : State) (p : Player) (r : Nat) :
    ∀ c : Nat, minColFrom s p r c = c - cnt s p (fun o => (c - o, r)) 1 c := by
  intro c
  induction c with
  | zero => rfl
  | succ c ih =>
    simp only [minColFrom, cnt, Nat.add_sub_cancel]
    by_cases hcell : s.idx c r = Cell.Set p
    · rw [if_pos hcell, if_pos hcell, ih, cnt_shift s p c (fun o => (c + 1 - o, r)) 1]
      have hfun : (fun o => (c + 1 - (o + 1), r)) = fun o => (c - o, r) := by
        funext o; congr 1; omega
      rw [hfun]
      have hle := cnt_le s p (fun o => (c - o, r)) c 1
      omega
    · rw [if_neg hcell, if_neg hcell]
      omega

theorem maxColFrom_eq_cnt (s : State) (p : Player) (r : Nat) :
    ∀ (fuel c : Nat), maxColFrom s p r c fuel = c + cnt s p (fun o => (c + o, r)) 1 fuel := by
  intro fuel
  induction fuel with
  | zero => intro c; rfl
  | succ fuel ih =>
    intro c
    simp only [maxColFrom, cnt]
    by_cases hcell : s.idx (c + 1) r = Cell.Set p
    · rw [if_pos hcell, if_pos hcell, ih (c+1),
        cnt_shift s p fuel (fun o => (c + o, r)) 1]
      have hfun : (fun o => (c + (o + 1), r)) = fun o => (c + 1 + o, r) := by
        funext o; congr 1; omega
      rw [hfun]
      omega
    · rw [if_neg hcell, if_neg hcell]
      omega

theorem minRowFrom_eq_cnt (s : State) (p : Player) (c : Nat) :
    ∀ r : Nat, minRowFrom s p c r = r - cnt s p (fun o => (c, r - o)) 1 r := by
  intro r
  induction r with
  | zero => rfl
  | succ r ih =>
    simp only [minRowFrom, cnt, Nat.add_sub_cancel]
    by_cases hcell : s.idx c r = Cell.Set p
    · rw [if_pos hcell, if_pos hcell, ih, cnt_shift s p r (fun o => (c, r + 1 - o)) 1]
      have hfun : (fun o => (c, r + 1 - (o + 1))) = fun o => (c, r - o) := by
        funext o; congr 1; omega
      rw [hfun]
      have hle := cnt_le s p (fun o => (c, r - o)) r 1
      omega
    · rw [if_neg hcell, if_neg hcell]
      omega

theorem maxRowFrom_eq_cnt (s : State) (p : Player) (c : Nat) :
    ∀ (fuel r : Nat), maxRowFrom s p c r fuel = r + cnt s p (fun o => (c, r + o)) 1 fuel := by
  intro fuel
  induction fuel with
  | zero => intro r; rfl
  | succ fuel ih =>
    intro r
    simp only [maxRowFrom, cnt]
    by_cases hcell : s.idx c (r + 1) = Cell.Set p
    · rw [if_pos hcell, if_pos hcell, ih (r+1),
        cnt_shift s p fuel (fun o => (c, r + o)) 1]
      have hfun : (fun o => (c, r + (o + 1))) = fun o => (c, r + 1 + o) := by
        funext o; congr 1; omega
      rw [hfun]
      omega
    · rw [if_neg hcell, if_neg hcell]
      omega

theorem diagUpMinFrom_eq_cnt (s : State) (p : Player) (c r : Nat) :
    ∀ (fuel off mn : Nat),
      diagUpMinFrom s p c r mn off fuel = mn - cnt s p (fun o => (c - o, r + o)) off fuel := by
  intro fuel
  induction fuel with
  | zero => intro off mn; rfl
  | succ fuel ih =>
    intro off mn
    simp only [diagUpMinFrom, cnt]
    by_cases hcell : s.idx (c - off) (r + off) = Cell.Set p
    · rw [if_pos hcell, if_pos hcell, ih (off+1) (mn-1)]
      omega
    · rw [if_neg hcell, if_neg hcell]
      omega

theorem diagUpMaxFrom_eq_cnt (s : State) (p : Player) (c r : Nat) :
    ∀ (fuel off mx : Nat),
      diagUpMaxFrom s p c r mx off fuel = mx + cnt s p (fun o => (c + o, r - o)) off fuel := by
  intro fuel
  induction fuel with
  | zero => intro off mx; rfl
  | succ fuel ih =>
    intro off mx
    simp only [diagUpMaxFrom, cnt]
    by_cases hcell : s.idx (c + off) (r - off) = Cell.Set p
    · rw [if_pos hcell, if_pos hcell, ih (off+1) (mx+1)]
      omega
    · rw [if_neg hcell, if_neg hcell]
      omega

theorem diagDownMinFrom_eq_cnt (s : State) (p : Player) (c r : Nat) :
    ∀ (fuel off mn : Nat),
      diagDownMinFrom s p c r mn off fuel = mn - cnt s p (fun o => (c - o, r - o)) off fuel := by
  intro fuel
  induction fuel with
  | zero => intro off mn; rfl
  | succ fuel ih =>
    intro off mn
    simp only [diagDownMinFrom, cnt]
    by_cases hcell : s.idx (c - off) (r - off) = Cell.Set p
    · rw [if_pos hcell, if_pos hcell, ih (off+1) (mn-1)]
      omega
    · rw [if_neg hcell, if_neg hcell]
      omega

theorem diagDownMaxFrom_eq_cnt (s : State) (p : Player) (c r : Nat) :
    ∀ (fuel off mx : Nat),
      diagDownMaxFrom s p c r mx off fuel = mx + cnt s p (fun o => (c + o, r + o)) off fuel := by
  intro fuel
  induction fuel with
  | zero => intro off mx; rfl
  | succ fuel ih =>
    intro off mx
    simp only [diagDownMaxFrom, cnt]
    by_cases hcell : s.idx (c + off) (r + off) = Cell.Set p
    · rw [if_pos hcell, if_pos hcell, ih (off+1) (mx+1)]
      omega
    · rw [if_neg hcell, if_neg hcell]
      omega

theorem rowFrom_congr_isSet (s t : State) (c c2 : Nat)
    (h : ∀ rr, (s.idx c rr).isSet = (t.idx c2 rr).isSet) :
    ∀ (fuel r : Nat), rowFrom s c r fuel = rowFrom t c2 r fuel := by
  intro fuel
  induction fuel with
  | zero => intro r; rfl
  | succ fuel ih =>
    intro r
    have hrr := h r
    rw [rowFrom_succ, rowFrom_succ]
    cases hs : s.idx c r with
    | Set p =>
      cases ht : t.idx c2 r with
      | Set q => rfl
      | Empty => rw [hs, ht] at hrr; exact absurd hrr (by simp [Cell.isSet])
    | Empty =>
      cases ht : t.idx c2 r with
      | Set q => rw [hs, ht] at hrr; exact absurd hrr (by simp [Cell.isSet])
      | Empty => exact ih (r+1)

/-- `try_move` yields `Victory` exactly when the column is open and one of the
four directional run-length checks meets the winning length. -/
theorem try_move_victory_iff (s : State) (c : Nat) :
    s.try_move c = MoveResult.Victory ↔
      (s.idx c 0 = Cell.Empty ∧
        (maxColFrom s s.player (s.row c) c (6 - c) -
            minColFrom s s.player (s.row c) c + 1 ≥ 4 ∨
         maxRowFrom s s.player c (s.row c) (5 - s.row c) -
            minRowFrom s s.player c (s.row c) + 1 ≥ 4 ∨
         diagUpMaxFrom s s.player c (s.row c) c 1 (min (s.row c + 1) (7 - c) - 1) -
            diagUpMinFrom s s.player c (s.row c) c 1 (min (6 - s.row c) (c + 1) - 1) + 1 ≥ 4 ∨
         diagDownMaxFrom s s.player c (s.row c) c 1 (min (6 - s.row c) (7 - c) - 1) -
            diagDownMinFrom s s.player c (s.row c) c 1 (min (s.row c) c) + 1 ≥ 4)) := by
  constructor
  · intro h
    by_cases he : s.idx c 0 = Cell.Empty
    · refine ⟨he, ?_⟩
      simp only [State.try_move] at h
      rw [if_pos he] at h
      split_ifs at h with h1 h2 h3 h4
      all_goals first
        | exact Or.inl h1
        | exact Or.inr (Or.inl h2)
        | exact Or.inr (Or.inr (Or.inl h3))
        | exact Or.inr (Or.inr (Or.inr h4))
        | exact MoveResult.noConfusion h
    · rw [try_move_of_full he] at h
      exact MoveResult.noConfusion h
  · rintro ⟨he, hor⟩
    simp only [State.try_move]
    rw [if_pos he]
    split_ifs with h1 h2 h3 h4
    · rfl
    · rfl
    · rfl
    · rfl
    · rcases hor with h | h | h | h
      · exact absurd h h1
      · exact absurd h h2
      · exact absurd h h3
      · exact absurd h h4

theorem mirror_idx (s : State) (a b : Nat) : (mirror s).idx a b = s.idx (6 - a) b := rfl

theorem mirror_player (s : State) : (mirror s).player = s.player := rfl

theorem swapPlayers_player (s : State) : (swapPlayers s).player = s.player.other := rfl

theorem swapPlayers_idx_set (s : State) (a b : Nat) (p : Player) :
    ((swapPlayers s).idx a b = Cell.Set p.other) ↔ (s.idx a b = Cell.Set p) := by
  show (match s.grid b a with
        | Cell.Empty => Cell.Empty
        | Cell.Set q => Cell.Set q.other) = Cell.Set p.other ↔ s.grid b a = Cell.Set p
  cases s.grid b a with
  | Empty => simp
  | Set q =>
    constructor
    · intro h
      have hq : q.other = p.other := by injection h
      have hqp : q = p := by cases q <;> cases p <;> simp_all [Player.other]
      rw [hqp]
    · intro h
      have hqp : q = p := by injection h
      rw [hqp]

theorem swapPlayers_idx_empty (s : State) (a b : Nat) :
    ((swapPlayers s).idx a b = Cell.Empty) ↔ (s.idx a b = Cell.Empty) := by
  show (match s.grid b a with
        | Cell.Empty => Cell.Empty
        | Cell.Set q => Cell.Set q.other) = Cell.Empty ↔ s.grid b a = Cell.Empty
  cases s.grid b a with
  | Empty => simp
  | Set q => simp

theorem swapPlayers_isSet (s : State) (a b : Nat) :
    ((swapPlayers s).idx a b).isSet = (s.idx a b).isSet := by
  show (match s.grid b a with
        | Cell.Empty => Cell.Empty
        | Cell.Set q => Cell.Set q.other).isSet = (s.grid b a).isSet
  cases s.grid b a <;> rfl

theorem cnt_mirror_sub (s : State) (p : Player) (c : Nat) (hc : c < 7) (rho : Nat → Nat) :
    ∀ fuel : Nat, fuel ≤ 6 - c →
      cnt (mirror s) p (fun o => (6 - c - o, rho o)) 1 fuel
        = cnt s p (fun o => (c + o, rho o)) 1 fuel := by
  intro fuel hfuel
  apply cnt_congr
  intro o h1 h2
  rw [mirror_idx]
  have hi : 6 - (6 - c - o) = c + o := by omega
  rw [hi]

theorem cnt_mirror_add (s : State) (p : Player) (c : Nat) (hc : c < 7) (rho : Nat → Nat) :
    ∀ fuel : Nat, fuel ≤ c →
      cnt (mirror s) p (fun o => (6 - c + o, rho o)) 1 fuel
        = cnt s p (fun o => (c - o, rho o)) 1 fuel := by
  intro fuel hfuel
  apply cnt_congr
  intro o h1 h2
  rw [mirror_idx]
  have hi : 6 - (6 - c + o) = c - o := by omega
  rw [hi]

theorem cnt_mirror_fix (s : State) (p : Player) (c : Nat) (hc : c < 7) (rho : Nat → Nat) :
    ∀ fuel : Nat,
      cnt (mirror s) p (fun o => (6 - c, rho o)) 1 fuel
        = cnt s p (fun o => (c, rho o)) 1 fuel := by
  intro fuel
  apply cnt_congr
  intro o h1 h2
  rw [mirror_idx]
  have hi : 6 - (6 - c) = c := by omega
  rw [hi]

theorem mirror_run_iff (c x y : Nat) (hc : c < 7) (hx : x ≤ c) (hy : y ≤ 6 - c) :
    6 - c + x - (6 - c - y) + 1 ≥ 4 ↔ c + y - (c - x) + 1 ≥ 4 := by
  omega

theorem bound_tighten1 (a r c : Nat) (h : a ≤ min (6 - r) (7 - c) - 1) : a ≤ 6 - c := by
  omega

theorem bound_tighten2 (a r c : Nat) (h : a ≤ min (6 - r) (c + 1) - 1) : a ≤ c := by
  omega

theorem bound_tighten3 (a r c : Nat) (h : a ≤ min r (6 - c)) : a ≤ 6 - c := by
  omega

theorem bound_tighten4 (a r c : Nat) (h : a ≤ min r c) : a ≤ c := by
  omega

set_option maxHeartbeats 1600000 in
/-- Claim C10: win detection is symmetric under horizontal mirroring (with the
move mapped to the mirrored column) and under swapping the two players'
labels. -/
theorem c10_win_symmetry (s : State) (c : Nat) (hc : c < 7) :
    ((mirror s).try_move (6 - c) = MoveResult.Victory ↔
        s.try_move c = MoveResult.Victory) ∧
    ((swapPlayers s).try_move c = MoveResult.Victory ↔
        s.try_move c = MoveResult.Victory) := by
  constructor
  · -- mirror symmetry
    have hcol : ∀ rr, (mirror s).idx (6 - c) rr = s.idx c rr := by
      intro rr
      rw [mirror_idx]
      have h66 : 6 - (6 - c) = c := by omega
      rw [h66]
    have hrow : (mirror s).row (6 - c) = s.row c := by
      show rowFrom (mirror s) (6 - c) 1 5 = rowFrom s c 1 5
      exact rowFrom_congr_isSet (mirror s) s (6 - c) c (fun rr => by rw [hcol rr]) 5 1
    rw [try_move_victory_iff (mirror s) (6 - c), try_move_victory_iff s c,
      mirror_player, hrow, hcol 0]
    clear hcol hrow
    have e1 : 6 - (6 - c) = c := by omega
    have e2 : 7 - (6 - c) = c + 1 := by omega
    have e3 : 6 - c + 1 = 7 - c := by omega
    rw [e1, e2, e3]
    clear e1 e2 e3
    simp only [minColFrom_eq_cnt, maxColFrom_eq_cnt, minRowFrom_eq_cnt, maxRowFrom_eq_cnt,
      diagUpMinFrom_eq_cnt, diagUpMaxFrom_eq_cnt, diagDownMinFrom_eq_cnt, diagDownMaxFrom_eq_cnt]
    have eA6 : min (s.row c + 1) (7 - c) - 1 = min (s.row c) (6 - c) := by omega
    have eA7 : min (s.row c + 1) (c + 1) - 1 = min (s.row c) c := by omega
    rw [eA6, eA7]
    clear eA6 eA7
    rw [cnt_mirror_sub s s.player c hc _ (6 - c) (by omega),
      cnt_mirror_add s s.player c hc _ c (by omega),
      cnt_mirror_fix s s.player c hc _ (s.row c),
      cnt_mirror_fix s s.player c hc _ (5 - s.row c),
      cnt_mirror_sub s s.player c hc _ (min (6 - s.row c) (7 - c) - 1) (by omega),
      cnt_mirror_add s s.player c hc _ (min (s.row c) c) (by omega),
      cnt_mirror_sub s s.player c hc _ (min (s.row c) (6 - c)) (by omega),
      cnt_mirror_add s s.player c hc _ (min (6 - s.row c) (c + 1) - 1) (by omega)]
    obtain ⟨A1, hA1⟩ : ∃ x, cnt s s.player (fun o => (c - o, s.row c)) 1 c = x := ⟨_, rfl⟩
    obtain ⟨A2, hA2⟩ : ∃ x, cnt s s.player (fun o => (c + o, s.row c)) 1 (6 - c) = x :=
      ⟨_, rfl⟩
    obtain ⟨A3, hA3⟩ : ∃ x, cnt s s.player (fun o => (c, s.row c - o)) 1 (s.row c) = x :=
      ⟨_, rfl⟩
    obtain ⟨A4, hA4⟩ : ∃ x, cnt s s.player (fun o => (c, s.row c + o)) 1 (5 - s.row c) = x :=
      ⟨_, rfl⟩
    obtain ⟨A5, hA5⟩ : ∃ x, cnt s s.player (fun o => (c - o, s.row c + o)) 1
        (min (6 - s.row c) (c + 1) - 1) = x := ⟨_, rfl⟩
    obtain ⟨A6, hA6⟩ : ∃ x, cnt s s.player (fun o => (c + o, s.row c - o)) 1
        (min (s.row c) (6 - c)) = x := ⟨_, rfl⟩
    obtain ⟨A7, hA7⟩ : ∃ x, cnt s s.player (fun o => (c - o, s.row c - o)) 1
        (min (s.row c) c) = x := ⟨_, rfl⟩
    obtain ⟨A8, hA8⟩ : ∃ x, cnt s s.player (fun o => (c + o, s.row c + o)) 1
        (min (6 - s.row c) (7 - c) - 1) = x := ⟨_, rfl⟩
    have b1 : A1 ≤ c := hA1 ▸ cnt_le s s.player _ c 1
    have b2 : A2 ≤ 6 - c := hA2 ▸ cnt_le s s.player _ (6 - c) 1
    have b3 : A3 ≤ s.row c := hA3 ▸ cnt_le s s.player _ (s.row c) 1
    have b4 : A4 ≤ 5 - s.row c := hA4 ▸ cnt_le s s.player _ (5 - s.row c) 1
    have b5 : A5 ≤ min (6 - s.row c) (c + 1) - 1 :=
      hA5 ▸ cnt_le s s.player _ (min (6 - s.row c) (c + 1) - 1) 1
    have b6 : A6 ≤ min (s.row c) (6 - c) :=
      hA6 ▸ cnt_le s s.player _ (min (s.row c) (6 - c)) 1
    have b7 : A7 ≤ min (s.row c) c := hA7 ▸ cnt_le s s.player _ (min (s.row c) c) 1
    have b8 : A8 ≤ min (6 - s.row c) (7 - c) - 1 :=
      hA8 ▸ cnt_le s s.player _ (min (6 - s.row c) (7 - c) - 1) 1
    rw [hA1, hA2, hA3, hA4, hA5, hA6, hA7, hA8]
    clear hA1 hA2 hA3 hA4 hA5 hA6 hA7 hA8
    obtain ⟨R, hR⟩ : ∃ x, s.row c = x := ⟨_, rfl⟩
    rw [hR] at b3 b4 b5 b6 b7 b8 ⊢
    clear hR
    have h1 := mirror_run_iff c A1 A2 hc b1 b2
    have h3 := mirror_run_iff c A7 A8 hc (bound_tighten4 A7 R c b7) (bound_tighten1 A8 R c b8)
    have h4 := mirror_run_iff c A5 A6 hc (bound_tighten2 A5 R c b5) (bound_tighten3 A6 R c b6)
    exact and_congr_right fun _ => by
      rw [h1, h3, h4]
      tauto
  · -- swap symmetry
    have hrow : (swapPlayers s).row c = s.row c := by
      show rowFrom (swapPlayers s) c 1 5 = rowFrom s c 1 5
      exact rowFrom_congr_isSet (swapPlayers s) s c c (fun rr => swapPlayers_isSet s c rr) 5 1
    have hswcnt : ∀ (f : Nat → Nat × Nat) (off fuel : Nat),
        cnt (swapPlayers s) (swapPlayers s).player f off fuel
          = cnt s s.player f off fuel := by
      intro f off fuel
      apply cnt_congr
      intro o _ _
      exact swapPlayers_idx_set s (f o).1 (f o).2 s.player
    rw [try_move_victory_iff (swapPlayers s) c, try_move_victory_iff s c,
      hrow, swapPlayers_idx_empty s c 0]
    simp only [minColFrom_eq_cnt, maxColFrom_eq_cnt, minRowFrom_eq_cnt, maxRowFrom_eq_cnt,
      diagUpMinFrom_eq_cnt, diagUpMaxFrom_eq_cnt, diagDownMinFrom_eq_cnt, diagDownMaxFrom_eq_cnt,
      hswcnt]

/-! ### Claim C8: totality of `try_move` (no out-of-bounds access, no underflow) -/

theorem idx?_of_lt {s : State} {c r : Nat} (hc : c < 7) (hr : r < 6) :
    idx? s c r = some (s.idx c r) := by
  unfold idx?; rw [if_pos ⟨hc, hr⟩]

theorem sub?_of_le {a b : Nat} (h : b ≤ a) : sub? a b = some (a - b) := by
  unfold sub?; rw [if_pos h]

theorem setCell?_of_lt {s : State} {c r : Nat} (hc : c < 7) (hr : r < 6) :
    setCell? s c r = some (s.placed c r) := by
  unfold setCell?; rw [if_pos ⟨hc, hr⟩]

theorem rowFrom_lt (s : State) (c : Nat) :
    ∀ (fuel r : Nat), r + fuel ≤ 6 → rowFrom s c r fuel < 6 := by
  intro fuel
  induction fuel with
  | zero => intro r _; exact Nat.lt_succ_self 5
  | succ fuel ih =>
    intro r h6
    cases hcell : s.idx c r with
    | Set p =>
      rw [show rowFrom s c r (fuel+1) = r - 1 from by rw [rowFrom_succ, hcell]]
      omega
    | Empty =>
      rw [show rowFrom s c r (fuel+1) = rowFrom s c (r+1) fuel from by
        rw [rowFrom_succ, hcell]]
      exact ih (r+1) (by omega)

theorem rowFromC_eq (s : State) (c : Nat) (hc : c < 7) :
    ∀ (fuel r : Nat), 1 ≤ r → r + fuel ≤ 6 →
      rowFromC s c r fuel = some (rowFrom s c r fuel) := by
  intro fuel
  induction fuel with
  | zero => intro r _ _; rfl
  | succ fuel ih =>
    intro r h1 h6
    have hr6 : r < 6 := by omega
    have hidx : idx? s c r = some (s.idx c r) := idx?_of_lt hc hr6
    cases hcell : s.idx c r with
    | Set p =>
      rw [show rowFromC s c r (fuel+1) = sub? r 1 from by
          simp only [rowFromC, hidx, hcell],
        show rowFrom s c r (fuel+1) = r - 1 from by rw [rowFrom_succ, hcell],
        sub?_of_le h1]
    | Empty =>
      rw [show rowFromC s c r (fuel+1) = rowFromC s c (r+1) fuel from by
          simp only [rowFromC, hidx, hcell],
        show rowFrom s c r (fuel+1) = rowFrom s c (r+1) fuel from by
          rw [rowFrom_succ, hcell]]
      exact ih (r+1) (by omega) (by omega)

theorem rowFromC_row (s : State) (c : Nat) (hc : c < 7) :
    rowFromC s c 1 5 = some (s.row c) :=
  rowFromC_eq s c hc 5 1 (by omega) (by omega)

theorem minColFromC_eq (s : State) (p : Player) (r : Nat) (hr : r < 6) :
    ∀ cc : Nat, cc ≤ 7 → minColFromC s p r cc = some (minColFrom s p r cc) := by
  intro cc
  induction cc with
  | zero => intro _; rfl
  | succ cc ih =>
    intro h7
    have hidx : idx? s cc r = some (s.idx cc r) := idx?_of_lt (by omega) hr
    rw [show minColFromC s p r (cc+1)
        = (if s.idx cc r = Cell.Set p then minColFromC s p r cc else some (cc + 1)) from by
        simp only [minColFromC, hidx]]
    show _ = some (if s.idx cc r = Cell.Set p then minColFrom s p r cc else cc + 1)
    by_cases hcell : s.idx cc r = Cell.Set p
    · rw [if_pos hcell, if_pos hcell, ih (by omega)]
    · rw [if_neg hcell, if_neg hcell]

theorem maxColFromC_eq (s : State) (p : Player) (r : Nat) (hr : r < 6) :
    ∀ (fuel cc : Nat), cc + fuel ≤ 6 →
      maxColFromC s p r cc fuel = some (maxColFrom s p r cc fuel) := by
  intro fuel
  induction fuel with
  | zero => intro cc _; rfl
  | succ fuel ih =>
    intro cc h6
    have hidx : idx? s (cc+1) r = some (s.idx (cc+1) r) := idx?_of_lt (by omega) hr
    rw [show maxColFromC s p r cc (fuel+1)
        = (if s.idx (cc+1) r = Cell.Set p then maxColFromC s p r (cc+1) fuel else some cc)
        from by simp only [maxColFromC, hidx]]
    show _ = some (if s.idx (cc+1) r = Cell.Set p then maxColFrom s p r (cc+1) fuel else cc)
    by_cases hcell : s.idx (cc+1) r = Cell.Set p
    · rw [if_pos hcell, if_pos hcell, ih (cc+1) (by omega)]
    · rw [if_neg hcell, if_neg hcell]

theorem minRowFromC_eq (s : State) (p : Player) (c : Nat) (hc : c < 7) :
    ∀ rr : Nat, rr ≤ 6 → minRowFromC s p c rr = some (minRowFrom s p c rr) := by
  intro rr
  induction rr with
  | zero => intro _; rfl
  | succ rr ih =>
    intro h6
    have hidx : idx? s c rr = some (s.idx c rr) := idx?_of_lt hc (by omega)
    rw [show minRowFromC s p c (rr+1)
        = (if s.idx c rr = Cell.Set p then minRowFromC s p c rr else some (rr + 1)) from by
        simp only [minRowFromC, hidx]]
    show _ = some (if s.idx c rr = Cell.Set p then minRowFrom s p c rr else rr + 1)
    by_cases hcell : s.idx c rr = Cell.Set p
    · rw [if_pos hcell, if_pos hcell, ih (by omega)]
    · rw [if_neg hcell, if_neg hcell]

theorem maxRowFromC_eq (s : State) (p : Player) (c : Nat) (hc : c < 7) :
    ∀ (fuel rr : Nat), rr + fuel ≤ 5 →
      maxRowFromC s p c rr fuel = some (maxRowFrom s p c rr fuel) := by
  intro fuel
  induction fuel with
  | zero => intro rr _; rfl
  | succ fuel ih =>
    intro rr h5
    have hidx : idx? s c (rr+1) = some (s.idx c (rr+1)) := idx?_of_lt hc (by omega)
    rw [show maxRowFromC s p c rr (fuel+1)
        = (if s.idx c (rr+1) = Cell.Set p then maxRowFromC s p c (rr+1) fuel else some rr)
        from by simp only [maxRowFromC, hidx]]
    show _ = some (if s.idx c (rr+1) = Cell.Set p then maxRowFrom s p c (rr+1) fuel else rr)
    by_cases hcell : s.idx c (rr+1) = Cell.Set p
    · rw [if_pos hcell, if_pos hcell, ih (rr+1) (by omega)]
    · rw [if_neg hcell, if_neg hcell]

theorem diagUpMinFromC_eq (s : State) (p : Player) (c r : Nat) (hc : c < 7) :
    ∀ (fuel off mn : Nat), 1 ≤ off → mn + off = c + 1 →
      off + fuel ≤ 6 - r → off + fuel ≤ c + 1 →
      diagUpMinFromC s p c r mn off fuel = some (diagUpMinFrom s p c r mn off fuel) := by
  intro fuel
  induction fuel with
  | zero => intro off mn _ _ _ _; rfl
  | succ fuel ih =>
    intro off mn h1 hmn h6 h7
    have hsc : sub? c off = some (c - off) := sub?_of_le (by omega)
    have hidx : idx? s (c - off) (r + off) = some (s.idx (c - off) (r + off)) :=
      idx?_of_lt (by omega) (by omega)
    rw [show diagUpMinFromC s p c r mn off (fuel+1)
        = (if s.idx (c - off) (r + off) = Cell.Set p then
            (match sub? mn 1 with
             | none => none
             | some mn' => diagUpMinFromC s p c r mn' (off + 1) fuel)
           else some mn) from by simp only [diagUpMinFromC, hsc, hidx]]
    show _ = some (if s.idx (c - off) (r + off) = Cell.Set p then
        diagUpMinFrom s p c r (mn - 1) (off + 1) fuel else mn)
    by_cases hcell : s.idx (c - off) (r + off) = Cell.Set p
    · rw [if_pos hcell, if_pos hcell, sub?_of_le (show 1 ≤ mn by omega)]
      exact ih (off+1) (mn-1) (by omega) (by omega) (by omega) (by omega)
    · rw [if_neg hcell, if_neg hcell]

theorem diagUpMaxFromC_eq (s : State) (p : Player) (c r : Nat) (hc : c < 7) (hr : r < 6) :
    ∀ (fuel off mx : Nat), 1 ≤ off → off + fuel ≤ r + 1 → off + fuel ≤ 7 - c →
      diagUpMaxFromC s p c r mx off fuel = some (diagUpMaxFrom s p c r mx off fuel) := by
  intro fuel
  induction fuel with
  | zero => intro off mx _ _ _; rfl
  | succ fuel ih =>
    intro off mx h1 hrb hcb
    have hsr : sub? r off = some (r - off) := sub?_of_le (by omega)
    have hidx : idx? s (c + off) (r - off) = some (s.idx (c + off) (r - off)) :=
      idx?_of_lt (by omega) (by omega)
    rw [show diagUpMaxFromC s p c r mx off (fuel+1)
        = (if s.idx (c + off) (r - off) = Cell.Set p then
            diagUpMaxFromC s p c r (mx + 1) (off + 1) fuel
           else some mx) from by simp only [diagUpMaxFromC, hsr, hidx]]
    show _ = some (if s.idx (c + off) (r - off) = Cell.Set p then
        diagUpMaxFrom s p c r (mx + 1) (off + 1) fuel else mx)
    by_cases hcell : s.idx (c + off) (r - off) = Cell.Set p
    · rw [if_pos hcell, if_pos hcell]
      exact ih (off+1) (mx+1) (by omega) (by omega) (by omega)
    · rw [if_neg hcell, if_neg hcell]

theorem diagDownMinFromC_eq (s : State) (p : Player) (c r : Nat) (hc : c < 7) (hr : r < 6) :
    ∀ (fuel off mn : Nat), 1 ≤ off → mn + off = c + 1 →
      off + fuel ≤ r + 1 → off + fuel ≤ c + 1 →
      diagDownMinFromC s p c r mn off fuel = some (diagDownMinFrom s p c r mn off fuel) := by
  intro fuel
  induction fuel with
  | zero => intro off mn _ _ _ _; rfl
  | succ fuel ih =>
    intro off mn h1 hmn hrb hcb
    have hsc : sub? c off = some (c - off) := sub?_of_le (by omega)
    have hsr : sub? r off = some (r - off) := sub?_of_le (by omega)
    have hidx : idx? s (c - off) (r - off) = some (s.idx (c - off) (r - off)) :=
      idx?_of_lt (by omega) (by omega)
    rw [show diagDownMinFromC s p c r mn off (fuel+1)
        = (if s.idx (c - off) (r - off) = Cell.Set p then
            (match sub? mn 1 with
             | none => none
             | some mn' => diagDownMinFromC s p c r mn' (off + 1) fuel)
           else some mn) from by simp only [diagDownMinFromC, hsc, hsr, hidx]]
    show _ = some (if s.idx (c - off) (r - off) = Cell.Set p then
        diagDownMinFrom s p c r (mn - 1) (off + 1) fuel else mn)
    by_cases hcell : s.idx (c - off) (r - off) = Cell.Set p
    · rw [if_pos hcell, if_pos hcell, sub?_of_le (show 1 ≤ mn by omega)]
      exact ih (off+1) (mn-1) (by omega) (by omega) (by omega) (by omega)
    · rw [if_neg hcell, if_neg hcell]

theorem diagDownMaxFromC_eq (s : State) (p : Player) (c r : Nat) :
    ∀ (fuel off mx : Nat), off + fuel ≤ 6 - r → off + fuel ≤ 7 - c →
      diagDownMaxFromC s p c r mx off fuel = some (diagDownMaxFrom s p c r mx off fuel) := by
  intro fuel
  induction fuel with
  | zero => intro off mx _ _; rfl
  | succ fuel ih =>
    intro off mx hrb hcb
    have hidx : idx? s (c + off) (r + off) = some (s.idx (c + off) (r + off)) :=
      idx?_of_lt (by omega) (by omega)
    rw [show diagDownMaxFromC s p c r mx off (fuel+1)
        = (if s.idx (c + off) (r + off) = Cell.Set p then
            diagDownMaxFromC s p c r (mx + 1) (off + 1) fuel
           else some mx) from by simp only [diagDownMaxFromC, hidx]]
    show _ = some (if s.idx (c + off) (r + off) = Cell.Set p then
        diagDownMaxFrom s p c r (mx + 1) (off + 1) fuel else mx)
    by_cases hcell : s.idx (c + off) (r + off) = Cell.Set p
    · rw [if_pos hcell, if_pos hcell]
      exact ih (off+1) (mx+1) (by omega) (by omega)
    · rw [if_neg hcell, if_neg hcell]

theorem minColFrom_le (s : State) (p : Player) (r c : Nat) : minColFrom s p r c ≤ c := by
  rw [minColFrom_eq_cnt]
  exact Nat.sub_le _ _

theorem maxColFrom_ge (s : State) (p : Player) (r c fuel : Nat) :
    c ≤ maxColFrom s p r c fuel := by
  rw [maxColFrom_eq_cnt]
  exact Nat.le_add_right _ _

theorem minRowFrom_le (s : State) (p : Player) (c r : Nat) : minRowFrom s p c r ≤ r := by
  rw [minRowFrom_eq_cnt]
  exact Nat.sub_le _ _

theorem maxRowFrom_ge (s : State) (p : Player) (c r fuel : Nat) :
    r ≤ maxRowFrom s p c r fuel := by
  rw [maxRowFrom_eq_cnt]
  exact Nat.le_add_right _ _

theorem diagUpMinFrom_le (s : State) (p : Player) (c r mn off fuel : Nat) :
    diagUpMinFrom s p c r mn off fuel ≤ mn := by
  rw [diagUpMinFrom_eq_cnt]
  exact Nat.sub_le _ _

theorem diagUpMaxFrom_ge (s : State) (p : Player) (c r mx off fuel : Nat) :
    mx ≤ diagUpMaxFrom s p c r mx off fuel := by
  rw [diagUpMaxFrom_eq_cnt]
  exact Nat.le_add_right _ _

theorem diagDownMinFrom_le (s : State) (p : Player) (c r mn off fuel : Nat) :
    diagDownMinFrom s p c r mn off fuel ≤ mn := by
  rw [diagDownMinFrom_eq_cnt]
  exact Nat.sub_le _ _

theorem diagDownMaxFrom_ge (s : State) (p : Player) (c r mx off fuel : Nat) :
    mx ≤ diagDownMaxFrom s p c r mx off fuel := by
  rw [diagDownMaxFrom_eq_cnt]
  exact Nat.le_add_right _ _

set_option maxHeartbeats 1600000 in
/-- Claim C8: `try_move` is total on every board and in-range column — the
checked variant, in which every array access is bounds-checked and every `u8`
subtraction underflow-checked (with `none` modelling a panic), never panics
and computes exactly the unchecked result.  In particular every index stays
inside the 6×7 grid, every subtraction is non-negative, and the function
always returns one of the three `MoveResult` values. -/
theorem c8_try_move_total (s : State) (c : Nat) (hc : c < 7) :
    try_move_checked s c = some (s.try_move c) := by
  have hidx0 : idx? s c 0 = some (s.idx c 0) := idx?_of_lt hc (by omega)
  by_cases he : s.idx c 0 = Cell.Empty
  · have hrlt : s.row c < 6 := rowFrom_lt s c 5 1 (by omega)
    have hrowC := rowFromC_row s c hc
    have hminC := minColFromC_eq s s.player (s.row c) hrlt c (by omega)
    have hmaxC := maxColFromC_eq s s.player (s.row c) hrlt (6 - c) c (by omega)
    have hsubH : sub? (maxColFrom s s.player (s.row c) c (6 - c))
        (minColFrom s s.player (s.row c) c)
        = some (maxColFrom s s.player (s.row c) c (6 - c)
            - minColFrom s s.player (s.row c) c) :=
      sub?_of_le (Nat.le_trans (minColFrom_le s s.player (s.row c) c)
        (maxColFrom_ge s s.player (s.row c) c (6 - c)))
    have hminR := minRowFromC_eq s s.player c hc (s.row c) (by omega)
    have hmaxR := maxRowFromC_eq s s.player c hc (5 - s.row c) (s.row c) (by omega)
    have hsubV : sub? (maxRowFrom s s.player c (s.row c) (5 - s.row c))
        (minRowFrom s s.player c (s.row c))
        = some (maxRowFrom s s.player c (s.row c) (5 - s.row c)
            - minRowFrom s s.player c (s.row c)) :=
      sub?_of_le (Nat.le_trans (minRowFrom_le s s.player c (s.row c))
        (maxRowFrom_ge s s.player c (s.row c) (5 - s.row c)))
    have hsub6 : sub? 6 (s.row c) = some (6 - s.row c) := sub?_of_le (by omega)
    have hsub7 : sub? 7 c = some (7 - c) := sub?_of_le (by omega)
    have hdum := diagUpMinFromC_eq s s.player c (s.row c) hc
      (min (6 - s.row c) (c + 1) - 1) 1 c (by omega) (by omega) (by omega) (by omega)
    have hduM := diagUpMaxFromC_eq s s.player c (s.row c) hc hrlt
      (min (s.row c + 1) (7 - c) - 1) 1 c (by omega) (by omega) (by omega)
    have hsubU : sub? (diagUpMaxFrom s s.player c (s.row c) c 1
          (min (s.row c + 1) (7 - c) - 1))
        (diagUpMinFrom s s.player c (s.row c) c 1 (min (6 - s.row c) (c + 1) - 1))
        = some (diagUpMaxFrom s s.player c (s.row c) c 1 (min (s.row c + 1) (7 - c) - 1)
            - diagUpMinFrom s s.player c (s.row c) c 1 (min (6 - s.row c) (c + 1) - 1)) :=
      sub?_of_le (Nat.le_trans
        (diagUpMinFrom_le s s.player c (s.row c) c 1 (min (6 - s.row c) (c + 1) - 1))
        (diagUpMaxFrom_ge s s.player c (s.row c) c 1 (min (s.row c + 1) (7 - c) - 1)))
    have hddm := diagDownMinFromC_eq s s.player c (s.row c) hc hrlt
      (min (s.row c) c) 1 c (by omega) (by omega) (by omega) (by omega)
    have hddM := diagDownMaxFromC_eq s s.player c (s.row c)
      (min (6 - s.row c) (7 - c) - 1) 1 c (by omega) (by omega)
    have hsubD : sub? (diagDownMaxFrom s s.player c (s.row c) c 1
          (min (6 - s.row c) (7 - c) - 1))
        (diagDownMinFrom s s.player c (s.row c) c 1 (min (s.row c) c))
        = some (diagDownMaxFrom s s.player c (s.row c) c 1 (min (6 - s.row c) (7 - c) - 1)
            - diagDownMinFrom s s.player c (s.row c) c 1 (min (s.row c) c)) :=
      sub?_of_le (Nat.le_trans
        (diagDownMinFrom_le s s.player c (s.row c) c 1 (min (s.row c) c))
        (diagDownMaxFrom_ge s s.player c (s.row c) c 1 (min (6 - s.row c) (7 - c) - 1)))
    have hset : setCell? s c (s.row c) = some (s.placed c (s.row c)) :=
      setCell?_of_lt hc hrlt
    simp only [try_move_checked, State.try_move, hidx0, he, if_true, hrowC, hminC, hmaxC,
      hsubH, hminR, hmaxR, hsubV, hsub6, hsub7, hdum, hduM, hsubU, hddm, hddM, hsubD, hset]
    split_ifs <;> rfl
  · rw [show try_move_checked s c = some MoveResult.Impossible from by
        simp only [try_move_checked, hidx0, if_neg he],
      try_move_of_full he]

theorem c8_try_move_total_witness :
    (0 < 7 ∧ try_move_checked vertB 0 = some (vertB.try_move 0)) ∧
      (5 < 7 ∧ try_move_checked lossB 5 = some (lossB.try_move 5)) :=
  ⟨⟨by decide, c8_try_move_total vertB 0 (by decide)⟩,
   ⟨by decide, c8_try_move_total lossB 5 (by decide)⟩⟩

theorem c10_win_symmetry_witness :
    isVictory ((mirror vertB).try_move 6) = true ∧
      isVictory ((swapPlayers vertB).try_move 0) = true ∧
      ((mirror vertB).try_move (6 - 0) = MoveResult.Victory ↔
        vertB.try_move 0 = MoveResult.Victory) ∧
      ((swapPlayers vertB).try_move 0 = MoveResult.Victory ↔
        vertB.try_move 0 = MoveResult.Victory) :=
  ⟨by decide, by decide,
   (c10_win_symmetry vertB 0 (by decide)).1,
   (c10_win_symmetry vertB 0 (by decide)).2⟩

end Connect4

